import Mathlib

/-!
Verification development for the conduit multi-instance orchestrator
(`cmd` package, `runMulti` in the CLI source) and the Prometheus metric
registration helpers (`cli/internal/metrics/utils.go`).

The Go code is shallowly embedded: pure computations become Lean
functions, and the effectful body of `runMulti` becomes a function from an
environment (recording the outcomes of the external calls it makes:
`os.Stat`, `os.MkdirAll`, `config.LoadOrCreate`, `conduit.NewMultiService`,
`MultiService.Run`, the context's cancellation state) to its returned
error together with a trace of the side effects it performed, in order.
-/

namespace Conduit

/-! ### Go `path/filepath` model (Unix rules)

`runMulti` derives per-instance paths with `filepath.Join` and
`filepath.Ext`.  On Unix, `filepath.Clean` / `Join` / `Ext` coincide with
`path.Clean` / `Join` / `Ext` from the Go standard library; they are
modelled here on `List Char`. -/

/-- Split a character list on the `'/'` path separator (pieces may be
empty, as in splitting `"a//b"`). -/
def splitSep : List Char → List (List Char)
  | [] => [[]]
  | c :: cs =>
    let r := splitSep cs
    if c = '/' then [] :: r
    else
      match r with
      | [] => [[c]]
      | p :: ps => (c :: p) :: ps

/-- One step of Go `path.Clean`'s element processing, on a stack of kept
elements (most recent first).  Empty and `"."` elements are dropped;
`".."` pops the most recent normal element, is dropped at the root, and is
kept when there is nothing left to pop in a relative path. -/
def cleanStep (rooted : Bool) (stack : List (List Char)) (e : List Char) : List (List Char) :=
  if e = [] ∨ e = ['.'] then stack
  else if e = ['.', '.'] then
    match stack with
    | top :: rest =>
      if top = ['.', '.'] then (if rooted then stack else e :: stack)
      else rest
    | [] => if rooted then [] else [e]
  else e :: stack

/-- Interleave `'/'` between path elements (Go `strings.Join(elems, "/")`). -/
def intercalateSep : List (List Char) → List Char
  | [] => []
  | [e] => e
  | e :: rest => e ++ '/' :: intercalateSep rest

/-- Reassemble a cleaned path from the kept elements (most recent first),
with a leading `'/'` when the path was rooted. -/
def cleanAssemble (rooted : Bool) (stack : List (List Char)) : List Char :=
  (if rooted then ['/'] else []) ++ intercalateSep stack.reverse

/-- Go `path.Clean` on a character list: `Clean("") = "."`; otherwise the
path is split on separators, the elements are processed by `cleanStep`,
and the result is reassembled (with a leading `'/'` when the input was
rooted), returning `"."` when everything cancelled out. -/
def cleanL : List Char → List Char
  | [] => ['.']
  | c :: cs =>
    if cleanAssemble (c == '/') ((splitSep (c :: cs)).foldl (cleanStep (c == '/')) []) = []
    then ['.']
    else cleanAssemble (c == '/') ((splitSep (c :: cs)).foldl (cleanStep (c == '/')) [])

/-- Go `filepath.Clean` on strings. -/
def cleanPath (s : String) : String := String.mk (cleanL s.data)

/-- Go `filepath.Join(a, b)`: empty leading elements are skipped, the rest
is joined with `'/'` and cleaned; `Join("", "") = ""`. -/
def joinPath (a b : String) : String :=
  if a ≠ "" then cleanPath (a ++ "/" ++ b)
  else if b ≠ "" then cleanPath b
  else ""

/-- Helper for Go `filepath.Ext`: the input is the path reversed; scan
towards the front, stopping with the empty extension at a path separator,
and returning the suffix from the dot (inclusive) at the first dot. -/
def extRevAux : List Char → List Char → List Char
  | [], _ => []
  | c :: cs, acc =>
    if c = '/' then []
    else if c = '.' then c :: acc
    else extRevAux cs (c :: acc)

/-- Go `filepath.Ext`: the suffix beginning at the final dot in the final
slash-separated element of the path; empty if there is no dot. -/
def extOf (p : String) : String := String.mk (extRevAux p.data.reverse [])

/-- The stem used by `runMulti`: `pattern[:len(pattern)-len(ext)]`. -/
def stemOf (p : String) : String :=
  String.mk (p.data.take (p.data.length - (extOf p).data.length))

/-! ### The `runMulti` embedding -/

/-- Go `error` values as produced in this file: either a leaf message
(`fmt.Errorf` without `%w`) or a wrapping error (`fmt.Errorf("msg: %w", err)`,
modelled as the message part together with the wrapped error). -/
inductive GoErr where
  | msg (s : String)
  | wrap (s : String) (inner : GoErr)
deriving DecidableEq

/-- The observable side effects `runMulti` performs, in program order. -/
inductive Effect where
  | mkdirAll (path : String)
  | buildConfig (i : Nat)
  | newMultiService
  | setupSignals
  | printStartup
  | runService
  | printAllStopped
deriving DecidableEq

/-- The options record passed to `config.LoadOrCreate` (package `config`;
`BandwidthMbps` is a Go `float64`, modelled as a rational — `runMulti`
never computes with it). -/
structure Options where
  dataDir : String
  psiphonConfigPath : String
  useEmbeddedConfig : Bool
  maxClients : Int
  bandwidthMbps : Rat
  verbosity : Int
  statsFile : String

/-- An opaque `config.Config`; its contents are external to the core, so
it is modelled as carrying the options it was created from. -/
structure Config where
  opts : Options

/-- The environment of one `runMulti` invocation: the flag values and the
outcomes of every external call the body makes. -/
structure MultiEnv where
  multiInstances : Int
  multiPsiphonConfig : String
  hasEmbeddedConfig : Bool
  statNotExist : String → Bool
  baseDataDir : String
  multiStatsFilePattern : String
  multiMaxClients : Int
  multiBandwidthMbps : Rat
  verbosity : Int
  mkdirErr : Option GoErr
  loadOrCreate : Options → Except GoErr Config
  newMultiServiceErr : List Config → Option GoErr
  runErr : Option GoErr
  ctxCancelled : Bool

/-- The psiphon-config source resolution at the top of `runMulti`: a
supplied path must pass `os.Stat` (`os.IsNotExist` check); with no path,
an embedded config is used when available, otherwise it is an error.  On
success it yields `(effectiveConfigPath, useEmbedded)`. -/
def resolveConfigSource (env : MultiEnv) : Except GoErr (String × Bool) :=
  if env.multiPsiphonConfig ≠ "" then
    if env.statNotExist env.multiPsiphonConfig then
      .error (.msg ("psiphon config file not found: " ++ env.multiPsiphonConfig))
    else .ok (env.multiPsiphonConfig, false)
  else if env.hasEmbeddedConfig then .ok (env.multiPsiphonConfig, true)
  else .error (.msg "psiphon config required: use --psiphon-config flag or build with embedded config")

/-- Per-instance data directory: `filepath.Join(baseDataDir, fmt.Sprintf("instance-%d", i))`. -/
def instDataDir (baseDir : String) (i : Nat) : String :=
  joinPath baseDir ("instance-" ++ toString i)

/-- Per-instance stats file: empty when the pattern is empty, otherwise
`filepath.Join(baseDataDir, fmt.Sprintf("%s-instance-%d%s", base, i, ext))`
with `ext := filepath.Ext(pattern)` and `base := pattern[:len-len(ext)]`. -/
def statsFileFor (baseDir pattern : String) (i : Nat) : String :=
  if pattern = "" then ""
  else joinPath baseDir (stemOf pattern ++ "-instance-" ++ toString i ++ extOf pattern)

/-- The `config.Options` literal built for instance `i` inside the loop of
`runMulti`, given the resolved config source. -/
def instanceOptions (env : MultiEnv) (src : String × Bool) (i : Nat) : Options :=
  { dataDir := instDataDir env.baseDataDir i
    psiphonConfigPath := src.1
    useEmbeddedConfig := src.2
    maxClients := env.multiMaxClients
    bandwidthMbps := env.multiBandwidthMbps
    verbosity := env.verbosity
    statsFile := statsFileFor env.baseDataDir env.multiStatsFilePattern i }

/-- The configuration loop of `runMulti` over the given instance indices:
each iteration calls `config.LoadOrCreate` (one `buildConfig` effect) and
the loop stops at the first error, wrapping it as
`failed to create config for instance %d: %w`. -/
def buildConfigs (env : MultiEnv) (src : String × Bool) :
    List Nat → Except GoErr (List Config) × List Effect
  | [] => (.ok [], [])
  | i :: rest =>
    match env.loadOrCreate (instanceOptions env src i) with
    | .error e =>
      (.error (.wrap ("failed to create config for instance " ++ toString i) e),
       [.buildConfig i])
    | .ok cfg =>
      let r := buildConfigs env src rest
      (r.1.map (cfg :: ·), .buildConfig i :: r.2)

/-- The body of `runMulti`, as the returned error (`none` is Go `nil`)
together with the trace of performed effects.  The shutdown-signal
goroutine it spawns is modelled separately (see `sigStep`). -/
def runMulti (env : MultiEnv) : Option GoErr × List Effect :=
  if env.multiInstances < 1 ∨ 32 < env.multiInstances then
    (some (.msg "instances must be between 1 and 32"), [])
  else
    match resolveConfigSource env with
    | .error e => (some e, [])
    | .ok src =>
      match env.mkdirErr with
      | some e =>
        (some (.wrap "failed to create base data directory" e), [.mkdirAll env.baseDataDir])
      | none =>
        match buildConfigs env src (List.range env.multiInstances.toNat) with
        | (.error e, effs) => (some e, .mkdirAll env.baseDataDir :: effs)
        | (.ok cfgs, effs) =>
          match env.newMultiServiceErr cfgs with
          | some e =>
            (some (.wrap "failed to create multi-instance service" e),
             .mkdirAll env.baseDataDir :: effs ++ [.newMultiService])
          | none =>
            let effs2 := .mkdirAll env.baseDataDir ::
              effs ++ [.newMultiService, .setupSignals, .printStartup, .runService]
            match env.runErr, env.ctxCancelled with
            | some e, false =>
              (some (.wrap "multi-instance service error" e), effs2)
            | _, _ => (none, effs2 ++ [.printAllStopped])

/-! ### The shutdown-signal bridge

`runMulti` sets up `sigChan := make(chan os.Signal, 1)`,
`signal.Notify(sigChan, SIGINT, SIGTERM)`, and spawns a goroutine that
performs one `<-sigChan`, prints the shutdown notice, and calls `cancel()`
once; `defer cancel()` runs a second (idempotent) `cancel()` at function
exit.  This is modelled as a transition system: signal delivery does a
non-blocking send into the capacity-1 buffer (dropping when full, as
`signal.Notify` does), the goroutine's single receive fires at most once,
and cancelling an already-cancelled context is a no-op. -/

/-- The state of the shutdown bridge: the signal channel's buffer
occupancy (capacity 1), whether the goroutine has already performed its
receive, how many times the shutdown notice was printed, whether the
context is cancelled, how many times cancellation was actually triggered
(transitions from not-cancelled to cancelled), and whether any runtime
fault occurred (the model has no fault transition, mirroring the code,
which performs no operation that can fault on a repeated signal). -/
structure SigState where
  buffered : Nat
  handlerDone : Bool
  printed : Nat
  cancelled : Bool
  cancelTriggers : Nat
  panicked : Bool

/-- The initial bridge state, right after `signal.Notify`. -/
def sigInit : SigState :=
  { buffered := 0, handlerDone := false, printed := 0, cancelled := false
    cancelTriggers := 0, panicked := false }

/-- `context.CancelFunc`: idempotent; only the first call transitions the
context to cancelled. -/
def triggerCancel (s : SigState) : SigState :=
  if s.cancelled then s
  else { s with cancelled := true, cancelTriggers := s.cancelTriggers + 1 }

/-- The events of one invocation: an external termination signal arrives
(`signal`); the goroutine's `<-sigChan` receive is scheduled
(`handlerRecv`); the deferred `cancel()` runs (`deferCancel`). -/
inductive SigEvent where
  | signal
  | handlerRecv
  | deferCancel

/-- One transition of the shutdown bridge.  A delivered signal is dropped
when the capacity-1 buffer is full; the goroutine's receive only fires
once and only when a signal is buffered, and then prints the notice and
cancels. -/
def sigStep (s : SigState) : SigEvent → SigState
  | .signal => if s.buffered < 1 then { s with buffered := s.buffered + 1 } else s
  | .handlerRecv =>
    if s.handlerDone = false ∧ 0 < s.buffered then
      triggerCancel
        { s with buffered := s.buffered - 1, handlerDone := true, printed := s.printed + 1 }
    else s
  | .deferCancel => triggerCancel s

/-- The bridge state after an arbitrary interleaving of events. -/
def sigRun (es : List SigEvent) : SigState := es.foldl sigStep sigInit

/-! ### Metric registration helpers (`cli/internal/metrics/utils.go`)

The helpers call `prometheus.NewGauge` / `NewGaugeVec` / `NewGaugeFunc`
and `prometheus.Register` from the Prometheus client library (an external
dependency).  The registry is modelled as a list of registered collectors;
`Register` yields `AlreadyRegisteredError` with the existing collector
when a collector with an identical descriptor (name, help, label names) is
already present, a different error when the name is taken by a different
descriptor, and otherwise records the new collector. -/

/-- The Go type of a registered collector, as relevant to the helpers'
type assertions. -/
inductive CollectorKind where
  | gauge
  | gaugeVec
  | gaugeFunc
deriving DecidableEq

/-- A collector as seen by the registry: its Go type, its descriptor
(name, help, label names), and an identity distinguishing separately
allocated collectors. -/
structure Collector where
  kind : CollectorKind
  name : String
  help : String
  labels : List String
  id : Nat
deriving DecidableEq

/-- The outcome of `prometheus.Register`. -/
inductive RegisterOutcome where
  | ok (reg : List Collector)
  | alreadyRegistered (existing : Collector)
  | failed (m : String)
deriving DecidableEq

/-- Modelled from the Prometheus client library (external dependency):
lookup by fully-qualified name; an identical descriptor yields
`AlreadyRegisteredError` carrying the existing collector, an inconsistent
one yields a plain error, and an unused name registers the collector. -/
def register (reg : List Collector) (c : Collector) : RegisterOutcome :=
  match reg.find? (fun c0 => c0.name == c.name) with
  | some c0 =>
    if c0.help = c.help ∧ c0.labels = c.labels then .alreadyRegistered c0
    else .failed "a previously registered descriptor with the same fully-qualified name has different fields"
  | none => .ok (c :: reg)

/-- Go interface-assertion compatibility for
`are.ExistingCollector.(T)` in the helpers: a value casts to
`prometheus.Gauge` or `*prometheus.GaugeVec` only when it has that type,
while `prometheus.GaugeFunc` is the interface `Metric + Collector`, which
a `prometheus.Gauge` also satisfies. -/
def castable (k : CollectorKind) (target : CollectorKind) : Bool :=
  match target, k with
  | .gauge, .gauge => true
  | .gaugeVec, .gaugeVec => true
  | .gaugeFunc, .gaugeFunc => true
  | .gaugeFunc, .gauge => true
  | _, _ => false

/-- The result of one helper call: the returned collector and the registry
afterwards, or a Go panic with its message. -/
inductive HelperResult where
  | ok (c : Collector) (reg : List Collector)
  | panicked (m : String)
deriving DecidableEq

/-- `newGauge` from `utils.go`: build a fresh gauge (`ev`), register it;
on `AlreadyRegisteredError` return the existing collector if it casts to
`prometheus.Gauge`, else panic `"different metric type registration"`; on
any other registration error, panic with it. -/
def newGauge (reg : List Collector) (name help : String) (fresh : Nat) : HelperResult :=
  match register reg ⟨.gauge, name, help, [], fresh⟩ with
  | .ok reg2 => .ok ⟨.gauge, name, help, [], fresh⟩ reg2
  | .alreadyRegistered ex =>
    if castable ex.kind .gauge then .ok ex reg
    else .panicked "different metric type registration"
  | .failed m => .panicked m

/-- `newGaugeVec` from `utils.go`, with its label names. -/
def newGaugeVec (reg : List Collector) (name help : String) (labels : List String)
    (fresh : Nat) : HelperResult :=
  match register reg ⟨.gaugeVec, name, help, labels, fresh⟩ with
  | .ok reg2 => .ok ⟨.gaugeVec, name, help, labels, fresh⟩ reg2
  | .alreadyRegistered ex =>
    if castable ex.kind .gaugeVec then .ok ex reg
    else .panicked "different metric type registration"
  | .failed m => .panicked m

/-- `newGaugeFunc` from `utils.go`; the supplied `func() float64` plays no
role in registration and is represented by the collector identity. -/
def newGaugeFunc (reg : List Collector) (name help : String) (fresh : Nat) : HelperResult :=
  match register reg ⟨.gaugeFunc, name, help, [], fresh⟩ with
  | .ok reg2 => .ok ⟨.gaugeFunc, name, help, [], fresh⟩ reg2
  | .alreadyRegistered ex =>
    if castable ex.kind .gaugeFunc then .ok ex reg
    else .panicked "different metric type registration"
  | .failed m => .panicked m

/-! ### Flag resolution for `--stats-file`

`init()` declares the flag with `StringVarP(&multiStatsFilePattern,
"stats-file", "s", "", ...)` and sets
`multiCmd.Flags().Lookup("stats-file").NoOptDefVal = "stats.json"`. -/

/-- The three ways a string flag can appear on a command line. -/
inductive FlagUse where
  | absent
  | presentNoValue
  | presentValue (v : String)
deriving DecidableEq

/-- Modelled from the pflag library (external dependency): an absent flag
keeps the declared default, a flag given without a value takes its
`NoOptDefVal` (only legal when one is set), and a flag given a value takes
that value. -/
def resolveStringFlag (defaultValue noOptDefVal : String) : FlagUse → String
  | .absent => defaultValue
  | .presentNoValue => noOptDefVal
  | .presentValue v => v

/-- The value of `multiStatsFilePattern` after flag parsing, from the
declarations in `init()`. -/
def statsFilePatternOf (u : FlagUse) : String := resolveStringFlag "" "stats.json" u

/-! ### Spec-side definitions

Definitions taken from the specification's words, for comparison against
the source-derived ones. -/

/-- The extension under the spec's reading of the stats pattern split:
scan the reversed pattern and return the suffix from the last dot of the
whole pattern, not stopping at path separators. -/
def extAnyRevAux : List Char → List Char → List Char
  | [], _ => []
  | c :: cs, acc => if c = '.' then c :: acc else extAnyRevAux cs (c :: acc)

/-- The spec-side extension: the pattern's suffix from its last dot
(anywhere in the pattern), empty when it has no dot. -/
def specExt (p : String) : String := String.mk (extAnyRevAux p.data.reverse [])

/-- The spec-side stem: everything before the spec-side extension. -/
def specStem (p : String) : String :=
  String.mk (p.data.take (p.data.length - (specExt p).data.length))

/-- The stats path as the spec's words describe it: `baseDir` joined with
`<stem>-instance-<i><ext>`, the pattern split into stem and extension at
its last dot; empty for an empty pattern. -/
def specStatsFileFor (baseDir pattern : String) (i : Nat) : String :=
  if pattern = "" then ""
  else joinPath baseDir (specStem pattern ++ "-instance-" ++ toString i ++ specExt pattern)

/-- Modelled from the spec: `config.LoadOrCreate` (package `config`) is
not among the visible sources; §4.1 specifies the instance-configuration
build step as total — "no failure path" — and as pure construction with no
side effect, given inputs already validated by the caller. -/
def specBuildInstance (o : Options) : Except GoErr Config × List Effect :=
  (.ok ⟨o⟩, [])

/-! ### Lemmas about the path model -/

lemma splitSep_ne_nil (l : List Char) : splitSep l ≠ [] := by
  cases l with
  | nil => simp [splitSep]
  | cons c cs =>
    simp only [splitSep]
    split
    · simp
    · split <;> simp

lemma splitSep_append_sep (a b : List Char) :
    splitSep (a ++ '/' :: b) = splitSep a ++ splitSep b := by
  induction a with
  | nil => simp [splitSep]
  | cons c cs ih =>
    by_cases hc : c = '/'
    · subst hc
      simp only [List.cons_append, splitSep, List.append_eq, if_pos rfl, ih]
      rfl
    · obtain ⟨p, ps, hps⟩ : ∃ p ps, splitSep cs = p :: ps := by
        cases h : splitSep cs with
        | nil => exact absurd h (splitSep_ne_nil cs)
        | cons p ps => exact ⟨p, ps, rfl⟩
      simp only [List.cons_append, splitSep, List.append_eq, if_neg hc, ih, hps,
        List.cons_append]

lemma splitSep_no_sep {w : List Char} (h : '/' ∉ w) : splitSep w = [w] := by
  induction w with
  | nil => rfl
  | cons c cs ih =>
    have hc : c ≠ '/' := fun e => h (e ▸ List.mem_cons_self c cs)
    have hcs : splitSep cs = [cs] := ih (fun hm => h (List.mem_cons_of_mem _ hm))
    simp [splitSep, hc, hcs]

lemma cleanStep_empty (r : Bool) (st : List (List Char)) : cleanStep r st [] = st := by
  simp [cleanStep]

lemma cleanStep_normal (r : Bool) (st : List (List Char)) {w : List Char}
    (h0 : w ≠ []) (h1 : w ≠ ['.']) (h2 : w ≠ ['.', '.']) :
    cleanStep r st w = w :: st := by
  unfold cleanStep
  rw [if_neg (by simp [h0, h1]), if_neg h2]

lemma intercalateSep_cons (e : List Char) {r : List (List Char)} (h : r ≠ []) :
    intercalateSep (e :: r) = e ++ '/' :: intercalateSep r := by
  cases r with
  | nil => exact absurd rfl h
  | cons f fs => rfl

lemma intercalateSep_concat (xs : List (List Char)) (w : List Char) :
    intercalateSep (xs ++ [w])
      = if xs = [] then w else intercalateSep xs ++ '/' :: w := by
  induction xs with
  | nil => rfl
  | cons e rest ih =>
    rw [List.cons_append, intercalateSep_cons e (by simp), ih]
    by_cases hr : rest = []
    · subst hr; simp [intercalateSep]
    · simp [hr, intercalateSep_cons e hr]

/-- The Boolean "the whole path is rooted" when `a` is what precedes an
inserted separator: a path `a ++ '/' :: w` is rooted when `a` starts with
`'/'` or is empty. -/
def rootedAfter (a : List Char) : Bool :=
  match a with
  | [] => true
  | c :: _ => c == '/'

/-- The cleaned prefix contributed by `a` when a path of the shape
`a ++ '/' :: w` (with `w` a normal final element) is cleaned: everything
except the final element, ending with a separator when nonempty. -/
def cleanPre (a : List Char) : List Char :=
  (if rootedAfter a then ['/'] else [])
    ++ (if (splitSep a).foldl (cleanStep (rootedAfter a)) [] = [] then []
        else intercalateSep ((splitSep a).foldl (cleanStep (rootedAfter a)) []).reverse
          ++ ['/'])

lemma cleanAssemble_push (r : Bool) (S : List (List Char)) (w : List Char) :
    cleanAssemble r (w :: S)
      = ((if r then ['/'] else [])
          ++ (if S = [] then [] else intercalateSep S.reverse ++ ['/'])) ++ w := by
  unfold cleanAssemble
  rw [List.reverse_cons, intercalateSep_concat]
  by_cases hS : S = []
  · subst hS; simp
  · have hrev : S.reverse ≠ [] := by simpa using hS
    rw [if_neg hrev, if_neg hS]
    simp [List.append_assoc]

lemma cleanL_factor (a : List Char) {w : List Char} (hs : '/' ∉ w)
    (h0 : w ≠ []) (h1 : w ≠ ['.']) (h2 : w ≠ ['.', '.']) :
    cleanL (a ++ '/' :: w) = cleanPre a ++ w := by
  have hsplit : splitSep (a ++ '/' :: w) = splitSep a ++ [w] := by
    rw [splitSep_append_sep, splitSep_no_sep hs]
  cases a with
  | nil =>
    show cleanL ('/' :: w) = cleanPre [] ++ w
    simp only [List.nil_append] at hsplit
    have hstack : (splitSep ('/' :: w)).foldl (cleanStep ('/' == '/')) [] = [w] := by
      rw [hsplit]
      show cleanStep ('/' == '/') (cleanStep ('/' == '/') [] []) w = [w]
      rw [cleanStep_empty, cleanStep_normal _ _ h0 h1 h2]
    have hasm : cleanAssemble ('/' == '/') [w] = ['/'] ++ w := by
      rw [show ([w] : List (List Char)) = w :: [] from rfl, cleanAssemble_push]
      simp
    simp only [cleanL, hstack, hasm]
    rw [if_neg (by simp [h0])]
    rfl
  | cons c a0 =>
    show cleanL ((c :: a0) ++ '/' :: w) = cleanPre (c :: a0) ++ w
    rw [List.cons_append]
    have hstack : (splitSep (c :: (a0 ++ '/' :: w))).foldl (cleanStep (c == '/')) []
        = w :: (splitSep (c :: a0)).foldl (cleanStep (c == '/')) [] := by
      rw [← List.cons_append, hsplit, List.foldl_append]
      simp only [List.foldl_cons, List.foldl_nil]
      rw [cleanStep_normal _ _ h0 h1 h2]
    simp only [cleanL, hstack, cleanAssemble_push]
    rw [if_neg (by simp [h0])]
    rfl

lemma cleanL_single {w : List Char} (hs : '/' ∉ w)
    (h0 : w ≠ []) (h1 : w ≠ ['.']) (h2 : w ≠ ['.', '.']) :
    cleanL w = w := by
  cases w with
  | nil => exact absurd rfl h0
  | cons c cs =>
    have hc : (c == '/') = false := by
      simp only [beq_eq_false_iff_ne, ne_eq]
      exact fun e => hs (e ▸ List.mem_cons_self c cs)
    have hstack : (splitSep (c :: cs)).foldl (cleanStep (c == '/')) [] = [c :: cs] := by
      rw [splitSep_no_sep hs]
      show cleanStep (c == '/') [] (c :: cs) = [c :: cs]
      rw [cleanStep_normal _ _ h0 h1 h2]
    have hasm : cleanAssemble (c == '/') [c :: cs] = c :: cs := by
      unfold cleanAssemble
      rw [hc]
      simp [intercalateSep]
    simp only [cleanL, hstack, hasm]
    rw [if_neg h0]

lemma cleanL_ne_nil (p : List Char) : cleanL p ≠ [] := by
  cases p with
  | nil => simp [cleanL]
  | cons c cs =>
    simp only [cleanL]
    split
    · simp
    · next h => exact h

/-! ### String-level path lemmas -/

lemma string_eq_empty_iff {s : String} : s = "" ↔ s.data = [] := by
  constructor
  · intro h; rw [h]
  · intro h; exact String.ext h

lemma data_append_sep (a b : String) :
    (a ++ "/" ++ b).data = a.data ++ '/' :: b.data := by
  rw [String.data_append, String.data_append]
  rw [show ("/" : String).data = ['/'] from rfl]
  simp [List.append_assoc]

lemma joinPath_data_of_ne {base : String} (hb : base ≠ "") (nm : String) :
    (joinPath base nm).data = cleanL (base.data ++ '/' :: nm.data) := by
  unfold joinPath
  rw [if_pos hb]
  show (cleanPath (base ++ "/" ++ nm)).data = _
  unfold cleanPath
  rw [data_append_sep]

lemma joinPath_data_of_empty {nm : String} (hn : nm ≠ "") :
    (joinPath "" nm).data = cleanL nm.data := by
  unfold joinPath
  rw [if_neg (by simp), if_pos hn]
  rfl

lemma extRevAux_no_sep : ∀ (l acc : List Char), '/' ∉ acc → '/' ∉ extRevAux l acc := by
  intro l
  induction l with
  | nil => intro acc _; simp [extRevAux]
  | cons c cs ih =>
    intro acc hacc
    by_cases hsep : c = '/'
    · simp [extRevAux, hsep]
    · have hacc2 : '/' ∉ c :: acc := by
        intro hm
        rcases List.mem_cons.1 hm with h | h
        · exact hsep h.symm
        · exact hacc h
      by_cases hdot : c = '.'
      · simpa [extRevAux, hsep, hdot] using hacc2
      · simpa [extRevAux, hsep, hdot] using ih (c :: acc) hacc2

lemma extOf_no_sep (p : String) : '/' ∉ (extOf p).data := by
  show '/' ∉ extRevAux p.data.reverse []
  exact extRevAux_no_sep _ [] (by simp)

/-- Split a character list at its last separator, if any. -/
lemma last_sep_split (s : List Char) :
    '/' ∉ s ∨ ∃ u t, s = u ++ '/' :: t ∧ '/' ∉ t := by
  induction s with
  | nil => exact Or.inl (by simp)
  | cons c cs ih =>
    rcases ih with h | ⟨u, t, hdec, ht⟩
    · by_cases hc : c = '/'
      · exact Or.inr ⟨[], cs, by rw [hc, List.nil_append], h⟩
      · refine Or.inl ?_
        intro hm
        rcases List.mem_cons.1 hm with e | e
        · exact hc e.symm
        · exact h e
    · exact Or.inr ⟨c :: u, t, by rw [hdec, List.cons_append], ht⟩

lemma not_dotlike_of_len {v : List Char} (h : 3 ≤ v.length) :
    v ≠ [] ∧ v ≠ ['.'] ∧ v ≠ ['.', '.'] := by
  refine ⟨fun e => ?_, fun e => ?_, fun e => ?_⟩ <;>
    (subst e; exact absurd h (by decide))

lemma instance_block_no_sep {si : List Char} (hi : '/' ∉ si) :
    '/' ∉ ("instance-".data ++ si) := by
  intro hm
  rcases List.mem_append.1 hm with h | h
  · exact absurd h (by decide)
  · exact hi h

lemma stats_block_no_sep {t si ex : List Char} (ht : '/' ∉ t) (hi : '/' ∉ si)
    (he : '/' ∉ ex) : '/' ∉ (t ++ ("-instance-".data ++ (si ++ ex))) := by
  intro hm
  rcases List.mem_append.1 hm with h | h
  · exact ht h
  · rcases List.mem_append.1 h with h | h
    · exact absurd h (by decide)
    · rcases List.mem_append.1 h with h | h
      · exact hi h
      · exact he h

lemma stats_block_props {t si ex : List Char} (ht : '/' ∉ t) (hi : '/' ∉ si)
    (he : '/' ∉ ex) :
    ('/' ∉ (t ++ ("-instance-".data ++ (si ++ ex)))) ∧
    (t ++ ("-instance-".data ++ (si ++ ex))) ≠ [] ∧
    (t ++ ("-instance-".data ++ (si ++ ex))) ≠ ['.'] ∧
    (t ++ ("-instance-".data ++ (si ++ ex))) ≠ ['.', '.'] := by
  have hns := stats_block_no_sep ht hi he
  have hlen : 3 ≤ (t ++ ("-instance-".data ++ (si ++ ex))).length := by
    simp only [List.length_append, List.length_cons, List.length_nil]
    omega
  obtain ⟨a, b, c⟩ := not_dotlike_of_len hlen
  exact ⟨hns, a, b, c⟩

lemma statsName_data (pattern : String) (i : Nat) :
    (stemOf pattern ++ "-instance-" ++ toString i ++ extOf pattern).data
      = (stemOf pattern).data
          ++ ("-instance-".data ++ ((toString i).data ++ (extOf pattern).data)) := by
  simp [String.data_append, List.append_assoc]

/-- The data directories of all instances share one prefix determined by
the base directory, followed by `instance-<i>`. -/
lemma instDataDir_factor (base : String) :
    ∃ P : List Char, ∀ i : Nat, '/' ∉ (toString i).data →
      (instDataDir base i).data = P ++ ("instance-".data ++ (toString i).data) := by
  have hprops : ∀ i : Nat, '/' ∉ (toString i).data →
      ('/' ∉ ("instance-".data ++ (toString i).data)) ∧
      ("instance-".data ++ (toString i).data) ≠ [] ∧
      ("instance-".data ++ (toString i).data) ≠ ['.'] ∧
      ("instance-".data ++ (toString i).data) ≠ ['.', '.'] := by
    intro i hi
    have hns := instance_block_no_sep hi
    have hlen : 3 ≤ ("instance-".data ++ (toString i).data).length := by
      simp only [List.length_append, List.length_cons, List.length_nil]
      omega
    obtain ⟨a, b, c⟩ := not_dotlike_of_len hlen
    exact ⟨hns, a, b, c⟩
  have hdata : ∀ i : Nat, ("instance-" ++ toString i : String).data
      = "instance-".data ++ (toString i).data := fun i => String.data_append ..
  by_cases hb : base = ""
  · refine ⟨[], fun i hi => ?_⟩
    obtain ⟨hns, h0, h1, h2⟩ := hprops i hi
    have hname : ("instance-" ++ toString i : String) ≠ "" := by
      rw [Ne, string_eq_empty_iff, hdata i]
      exact h0
    subst hb
    show (joinPath "" ("instance-" ++ toString i)).data = _
    rw [joinPath_data_of_empty hname, hdata i, cleanL_single hns h0 h1 h2,
      List.nil_append]
  · refine ⟨cleanPre base.data, fun i hi => ?_⟩
    obtain ⟨hns, h0, h1, h2⟩ := hprops i hi
    show (joinPath base ("instance-" ++ toString i)).data = _
    rw [joinPath_data_of_ne hb, hdata i, cleanL_factor base.data hns h0 h1 h2]

/-- The stats files of all instances share one prefix determined by the
base directory and the pattern, followed by `-instance-<i><ext>`. -/
lemma statsFileFor_factor (base pattern : String) (hp : pattern ≠ "") :
    ∃ P : List Char, ∀ i : Nat, '/' ∉ (toString i).data →
      (statsFileFor base pattern i).data
        = P ++ ("-instance-".data ++ ((toString i).data ++ (extOf pattern).data)) := by
  have hex : '/' ∉ (extOf pattern).data := extOf_no_sep pattern
  have hsf : ∀ i : Nat, statsFileFor base pattern i
      = joinPath base (stemOf pattern ++ "-instance-" ++ toString i ++ extOf pattern) := by
    intro i
    unfold statsFileFor
    rw [if_neg hp]
  rcases last_sep_split (stemOf pattern).data with hA | ⟨u, t, hdec, ht⟩
  · by_cases hb : base = ""
    · refine ⟨(stemOf pattern).data, fun i hi => ?_⟩
      obtain ⟨hns, h0, h1, h2⟩ := stats_block_props hA hi hex
      have hname : (stemOf pattern ++ "-instance-" ++ toString i ++ extOf pattern) ≠ "" := by
        rw [Ne, string_eq_empty_iff, statsName_data]
        exact h0
      subst hb
      rw [hsf i, joinPath_data_of_empty hname, statsName_data,
        cleanL_single hns h0 h1 h2]
    · refine ⟨cleanPre base.data ++ (stemOf pattern).data, fun i hi => ?_⟩
      obtain ⟨hns, h0, h1, h2⟩ := stats_block_props hA hi hex
      rw [hsf i, joinPath_data_of_ne hb, statsName_data,
        cleanL_factor base.data hns h0 h1 h2]
      simp [List.append_assoc]
  · have hnm : ∀ i : Nat,
        (stemOf pattern ++ "-instance-" ++ toString i ++ extOf pattern).data
          = u ++ '/' :: (t ++ ("-instance-".data ++ ((toString i).data ++ (extOf pattern).data))) := by
      intro i
      rw [statsName_data, hdec]
      simp [List.append_assoc]
    by_cases hb : base = ""
    · refine ⟨cleanPre u ++ t, fun i hi => ?_⟩
      obtain ⟨hns, h0, h1, h2⟩ := stats_block_props ht hi hex
      have hname : (stemOf pattern ++ "-instance-" ++ toString i ++ extOf pattern) ≠ "" := by
        rw [Ne, string_eq_empty_iff, hnm i]
        simp
      subst hb
      rw [hsf i, joinPath_data_of_empty hname, hnm i,
        cleanL_factor u hns h0 h1 h2]
      simp [List.append_assoc]
    · refine ⟨cleanPre (base.data ++ '/' :: u) ++ t, fun i hi => ?_⟩
      obtain ⟨hns, h0, h1, h2⟩ := stats_block_props ht hi hex
      rw [hsf i, joinPath_data_of_ne hb, hnm i]
      rw [show base.data ++ '/' :: (u ++ '/'
            :: (t ++ ("-instance-".data ++ ((toString i).data ++ (extOf pattern).data))))
          = (base.data ++ '/' :: u) ++ '/'
            :: (t ++ ("-instance-".data ++ ((toString i).data ++ (extOf pattern).data)))
        from by simp [List.append_assoc]]
      rw [cleanL_factor (base.data ++ '/' :: u) hns h0 h1 h2]
      simp [List.append_assoc]

lemma repr_slash_free_lt32 : ∀ i < 32, '/' ∉ (toString (i : Nat)).data := by decide

lemma repr_inj_lt32 : ∀ i < 32, ∀ j < 32, toString (i : Nat) = toString (j : Nat) → i = j := by
  decide

lemma instDataDir_inj (base : String) {i j : Nat} (hi : i < 32) (hj : j < 32)
    (h : instDataDir base i = instDataDir base j) : i = j := by
  obtain ⟨P, hP⟩ := instDataDir_factor base
  have hd := congrArg String.data h
  rw [hP i (repr_slash_free_lt32 i hi), hP j (repr_slash_free_lt32 j hj)] at hd
  exact repr_inj_lt32 i hi j hj
    (String.ext (List.append_cancel_left (List.append_cancel_left hd)))

lemma statsFileFor_inj (base pattern : String) (hp : pattern ≠ "") {i j : Nat}
    (hi : i < 32) (hj : j < 32)
    (h : statsFileFor base pattern i = statsFileFor base pattern j) : i = j := by
  obtain ⟨P, hP⟩ := statsFileFor_factor base pattern hp
  have hd := congrArg String.data h
  rw [hP i (repr_slash_free_lt32 i hi), hP j (repr_slash_free_lt32 j hj)] at hd
  have h1 := List.append_cancel_left (List.append_cancel_left hd)
  exact repr_inj_lt32 i hi j hj (String.ext (List.append_cancel_right h1))

lemma extRevAux_eq_any {l : List Char} (h : '/' ∉ l) :
    ∀ acc : List Char, extRevAux l acc = extAnyRevAux l acc := by
  induction l with
  | nil => intro acc; rfl
  | cons c cs ih =>
    intro acc
    have hc : c ≠ '/' := fun e => h (e ▸ List.mem_cons_self c cs)
    have hcs : '/' ∉ cs := fun hm => h (List.mem_cons_of_mem _ hm)
    simp only [extRevAux, extAnyRevAux, if_neg hc]
    split
    · rfl
    · exact ih hcs (c :: acc)

lemma statsFileFor_ne_empty (base pattern : String) (i : Nat) (hp : pattern ≠ "") :
    statsFileFor base pattern i ≠ "" := by
  unfold statsFileFor
  rw [if_neg hp]
  unfold joinPath
  by_cases hb : base = ""
  · rw [if_neg (by simp [hb]), if_pos ?hne]
    case hne =>
      rw [Ne, string_eq_empty_iff, statsName_data]
      intro hnil
      have := congrArg List.length hnil
      simp only [List.length_append, List.length_cons, List.length_nil] at this
      omega
    rw [Ne, string_eq_empty_iff]
    exact cleanL_ne_nil _
  · rw [if_pos hb, Ne, string_eq_empty_iff]
    exact cleanL_ne_nil _

/-- C6: for every instance count `N` in `[1, 32]`, every base directory
and every stats pattern, the `N` instance data directories are pairwise
distinct, and so are the `N` stats file paths when the pattern is
non-empty. -/
theorem instance_paths_distinct (N : Nat) (base pattern : String)
    (h1 : 1 ≤ N) (h2 : N ≤ 32) :
    ((List.range N).map (fun i => instDataDir base i)).Nodup ∧
    (pattern ≠ "" → ((List.range N).map (fun i => statsFileFor base pattern i)).Nodup) := by
  constructor
  · refine List.Nodup.map_on ?_ (List.nodup_range N)
    intro i hi j hj hEq
    exact instDataDir_inj base (lt_of_lt_of_le (List.mem_range.1 hi) h2)
      (lt_of_lt_of_le (List.mem_range.1 hj) h2) hEq
  · intro hp
    refine List.Nodup.map_on ?_ (List.nodup_range N)
    intro i hi j hj hEq
    exact statsFileFor_inj base pattern hp (lt_of_lt_of_le (List.mem_range.1 hi) h2)
      (lt_of_lt_of_le (List.mem_range.1 hj) h2) hEq

/-- Witness for `instance_paths_distinct` at `N = 4`, base `/tmp/x`,
pattern `stats.json`. -/
theorem instance_paths_distinct_witness :
    ((List.range 4).map (fun i => instDataDir "/tmp/x" i)).Nodup ∧
    ((List.range 4).map (fun i => statsFileFor "/tmp/x" "stats.json" i)).Nodup :=
  ⟨(instance_paths_distinct 4 "/tmp/x" "stats.json" (by decide) (by decide)).1,
   (instance_paths_distinct 4 "/tmp/x" "stats.json" (by decide) (by decide)).2 (by decide)⟩

/-- C5, counterexample: the source splits the pattern with
`filepath.Ext`, which looks for a dot only in the final slash-separated
element, while a split at the pattern's last dot (the claim's words)
differs as soon as a separator follows the last dot: at pattern `a.b/c`
the code produces `/tmp/x/a.b/c-instance-0`, the claimed formula
`/tmp/x/a-instance-0.b/c`. -/
theorem statsFilePath_spec_split_counterexample :
    statsFileFor "/tmp/x" "a.b/c" 0 = "/tmp/x/a.b/c-instance-0" ∧
    specStatsFileFor "/tmp/x" "a.b/c" 0 = "/tmp/x/a-instance-0.b/c" ∧
    statsFileFor "/tmp/x" "a.b/c" 0 ≠ specStatsFileFor "/tmp/x" "a.b/c" 0 := by
  refine ⟨by decide, by decide, by decide⟩

/-- C5, amended: for every non-empty stats pattern containing no path
separator, the stats path is the base directory joined with
`<stem>-instance-<i><ext>`, the pattern split at its last dot; an empty
pattern yields an empty stats path; and concretely, with base `/tmp/x`
and pattern `stats.json`, instance `i < 4` has data directory
`/tmp/x/instance-<i>` and stats path `/tmp/x/stats-instance-<i>.json`. -/
theorem statsFilePath_formula :
    (∀ (base pattern : String) (i : Nat), pattern ≠ "" → '/' ∉ pattern.data →
      statsFileFor base pattern i = specStatsFileFor base pattern i) ∧
    (∀ (base : String) (i : Nat), statsFileFor base "" i = "") ∧
    (∀ i : Nat, i < 4 →
      instDataDir "/tmp/x" i = "/tmp/x/instance-" ++ toString i ∧
      statsFileFor "/tmp/x" "stats.json" i
        = "/tmp/x/stats-instance-" ++ toString i ++ ".json") := by
  refine ⟨?_, ?_, by decide⟩
  · intro base pattern i hp hsl
    have hext : extOf pattern = specExt pattern := by
      unfold extOf specExt
      exact congrArg String.mk (extRevAux_eq_any (by simpa using hsl) [])
    have hstem : stemOf pattern = specStem pattern := by
      unfold stemOf specStem
      rw [hext]
    unfold statsFileFor specStatsFileFor
    rw [if_neg hp, if_neg hp, hext, hstem]
  · intro base i
    unfold statsFileFor
    rw [if_pos rfl]

/-- Witness for `statsFilePath_formula` at base `/tmp`, pattern
`stats.json`, instance 1. -/
theorem statsFilePath_formula_witness :
    statsFileFor "/tmp" "stats.json" 1 = specStatsFileFor "/tmp" "stats.json" 1 :=
  statsFilePath_formula.1 "/tmp" "stats.json" 1 (by decide) (by decide)

/-! ### Claims about `runMulti`'s control flow -/

lemma buildConfigs_no_run (env : MultiEnv) (src : String × Bool) :
    ∀ l : List Nat, Effect.runService ∉ (buildConfigs env src l).2 := by
  intro l
  induction l with
  | nil => simp [buildConfigs]
  | cons i rest ih =>
    simp only [buildConfigs]
    rcases h : env.loadOrCreate (instanceOptions env src i) with e | cfg <;>
      simp [h, ih]

/-- C1: in every invocation that reaches `multiService.Run` (the trace
contains the `runService` effect), a cancelled context at the time `Run`
returns yields a `nil` result whatever `Run` returned, and a non-cancelled
context with a failing `Run` yields the wrapped error
`multi-instance service error: %w`. -/
theorem runMulti_aggregation (env : MultiEnv)
    (hrun : Effect.runService ∈ (runMulti env).2) :
    (env.ctxCancelled = true → (runMulti env).1 = none) ∧
    (env.ctxCancelled = false → ∀ e : GoErr, env.runErr = some e →
      (runMulti env).1 = some (.wrap "multi-instance service error" e)) := by
  unfold runMulti at hrun ⊢
  by_cases hN : env.multiInstances < 1 ∨ 32 < env.multiInstances
  · rw [if_pos hN] at hrun
    simp at hrun
  rw [if_neg hN] at hrun ⊢
  rcases hsrc : resolveConfigSource env with e | src
  · simp [hsrc] at hrun
  rcases hm : env.mkdirErr with _ | e
  swap
  · simp [hsrc, hm] at hrun
  rcases hb : buildConfigs env src (List.range env.multiInstances.toNat) with ⟨r, effs⟩
  have heffs : Effect.runService ∉ effs := by
    have h := buildConfigs_no_run env src (List.range env.multiInstances.toNat)
    rw [hb] at h
    exact h
  rcases r with e | cfgs
  · simp [hsrc, hm, hb] at hrun
    exact absurd hrun heffs
  rcases hn : env.newMultiServiceErr cfgs with _ | e
  swap
  · simp [hsrc, hm, hb, hn] at hrun
    exact absurd hrun heffs
  constructor
  · intro hc
    rw [hc]
    rcases hr : env.runErr with _ | e <;> simp [hb, hn, hr]
  · intro hc e hre
    rw [hc, hre]
    simp [hb, hn]

/-- C3: an instance count below 1 or above 32 makes `runMulti` return the
configuration error immediately, with an empty effect trace (no directory
created, no instance configuration built, no service created or run). -/
theorem runMulti_rejects_bad_instance_count (env : MultiEnv)
    (h : env.multiInstances < 1 ∨ 32 < env.multiInstances) :
    runMulti env = (some (.msg "instances must be between 1 and 32"), []) := by
  unfold runMulti
  rw [if_pos h]

/-- C4: with a valid instance count, a supplied psiphon-config path whose
file does not exist, or no path and no embedded config, makes `runMulti`
return the corresponding error with an empty effect trace (before any
directory creation, configuration build, or service creation/start); with
no path and an embedded config, the embedded source is selected. -/
theorem runMulti_config_source_errors (env : MultiEnv)
    (hN : ¬(env.multiInstances < 1 ∨ 32 < env.multiInstances)) :
    (env.multiPsiphonConfig ≠ "" → env.statNotExist env.multiPsiphonConfig = true →
      runMulti env
        = (some (.msg ("psiphon config file not found: " ++ env.multiPsiphonConfig)), [])) ∧
    (env.multiPsiphonConfig = "" → env.hasEmbeddedConfig = false →
      runMulti env
        = (some (.msg "psiphon config required: use --psiphon-config flag or build with embedded config"), [])) ∧
    (env.multiPsiphonConfig = "" → env.hasEmbeddedConfig = true →
      resolveConfigSource env = .ok (env.multiPsiphonConfig, true)) := by
  refine ⟨?_, ?_, ?_⟩
  · intro hcfg hstat
    unfold runMulti resolveConfigSource
    rw [if_neg hN, if_pos hcfg, if_pos hstat]
  · intro hcfg hemb
    unfold runMulti resolveConfigSource
    rw [if_neg hN, if_neg (by simp [hcfg]), if_neg (by simp [hemb])]
  · intro hcfg hemb
    unfold resolveConfigSource
    rw [if_neg (by simp [hcfg]), if_pos hemb]

/-- A baseline environment for concrete invocations: one instance, a
psiphon-config path whose file exists, and all external calls
succeeding. -/
def envBase : MultiEnv :=
  { multiInstances := 1
    multiPsiphonConfig := "net.json"
    hasEmbeddedConfig := false
    statNotExist := fun _ => false
    baseDataDir := "/data"
    multiStatsFilePattern := ""
    multiMaxClients := 25
    multiBandwidthMbps := 5
    verbosity := 0
    mkdirErr := none
    loadOrCreate := fun o => .ok ⟨o⟩
    newMultiServiceErr := fun _ => none
    runErr := none
    ctxCancelled := false }

/-- An invocation that reaches `Run`, whose `Run` fails but whose context
was cancelled. -/
def envC1 : MultiEnv :=
  { envBase with runErr := some (.msg "inproxy failed"), ctxCancelled := true }

/-- Witness for `runMulti_aggregation`: a cancelled invocation whose `Run`
errored still returns `nil`. -/
theorem runMulti_aggregation_witness :
    (runMulti envC1).1 = none ∧ Effect.runService ∈ (runMulti envC1).2 :=
  ⟨(runMulti_aggregation envC1 (by decide)).1 rfl, by decide⟩

/-- An invocation requesting zero instances. -/
def envC3 : MultiEnv := { envBase with multiInstances := 0 }

/-- Witness for `runMulti_rejects_bad_instance_count` at `N = 0`. -/
theorem runMulti_rejects_bad_instance_count_witness :
    runMulti envC3 = (some (.msg "instances must be between 1 and 32"), []) :=
  runMulti_rejects_bad_instance_count envC3 (Or.inl (by decide))

/-- An invocation whose supplied psiphon-config path does not exist. -/
def envC4 : MultiEnv := { envBase with statNotExist := fun _ => true }

/-- An invocation with no psiphon-config path and an embedded config. -/
def envC4e : MultiEnv := { envBase with multiPsiphonConfig := "", hasEmbeddedConfig := true }

/-- Witness for `runMulti_config_source_errors`: a missing config file
aborts with the not-found error and no effect, and the embedded config is
selected when no path is given. -/
theorem runMulti_config_source_errors_witness :
    runMulti envC4
      = (some (.msg ("psiphon config file not found: " ++ envC4.multiPsiphonConfig)), []) ∧
    resolveConfigSource envC4e = .ok (envC4e.multiPsiphonConfig, true) :=
  ⟨(runMulti_config_source_errors envC4 (by decide)).1 (by decide) rfl,
   (runMulti_config_source_errors envC4e (by decide)).2.2 rfl rfl⟩

/-! ### The shutdown bridge claims -/

/-- The inductive invariant of the shutdown bridge: the notice is printed
exactly when the goroutine has fired, cancellation has been triggered
exactly when the context is cancelled, and no fault has occurred. -/
def SigInv (s : SigState) : Prop :=
  s.printed = (if s.handlerDone then 1 else 0) ∧
  s.cancelTriggers = (if s.cancelled then 1 else 0) ∧
  s.panicked = false

lemma sigInv_init : SigInv sigInit := by
  refine ⟨rfl, rfl, rfl⟩

lemma sigInv_step {s : SigState} (h : SigInv s) (e : SigEvent) : SigInv (sigStep s e) := by
  obtain ⟨h1, h2, h3⟩ := h
  cases e with
  | signal =>
    by_cases hb : s.buffered < 1 <;>
      simp [sigStep, hb, SigInv, h1, h2, h3]
  | handlerRecv =>
    by_cases hg : s.handlerDone = false ∧ 0 < s.buffered
    · have hd : s.handlerDone = false := hg.1
      rw [hd] at h1
      by_cases hc : s.cancelled = true <;>
        simp [sigStep, hg, triggerCancel, SigInv, hc, h1, h2, h3]
    · simp [sigStep, hg, SigInv, h1, h2, h3]
  | deferCancel =>
    by_cases hc : s.cancelled = true <;>
      simp [sigStep, triggerCancel, SigInv, hc, h1, h2, h3]

lemma sigInv_run (es : List SigEvent) : SigInv (sigRun es) := by
  have hfold : ∀ (l : List SigEvent) (s : SigState), SigInv s → SigInv (l.foldl sigStep s) := by
    intro l
    induction l with
    | nil => intro s h; exact h
    | cons e rest ih => intro s h; exact ih _ (sigInv_step h e)
  exact hfold es sigInit sigInv_init

/-- C2: under every interleaving of delivered termination signals, the
goroutine's receive and the deferred cancel, the shutdown notice is
printed at most once, cancellation is logically triggered at most once,
and no runtime fault occurs. -/
theorem shutdown_signal_at_most_once (es : List SigEvent) :
    (sigRun es).printed ≤ 1 ∧ (sigRun es).cancelTriggers ≤ 1 ∧
    (sigRun es).panicked = false := by
  obtain ⟨h1, h2, h3⟩ := sigInv_run es
  refine ⟨?_, ?_, h3⟩
  · rw [h1]; split <;> omega
  · rw [h2]; split <;> omega

/-! ### The instance configuration builder claim -/

/-- C7: building one instance configuration, with the paths computed as
`runMulti` computes them, is total — it produces a configuration, never an
error — and emits no side effect.  The builder proper
(`config.LoadOrCreate`) is modelled from the spec, the option record and
path derivations from the source. -/
theorem build_instance_total_pure (env : MultiEnv) (src : String × Bool) (i : Nat) :
    specBuildInstance (instanceOptions env src i)
      = (.ok ⟨instanceOptions env src i⟩, []) := rfl

/-! ### Metric registration claims -/

lemma register_ok_inv {reg r2 : List Collector} {c : Collector}
    (h : register reg c = .ok r2) :
    reg.find? (fun c0 => c0.name == c.name) = none ∧ r2 = c :: reg := by
  unfold register at h
  rcases hf : reg.find? (fun c0 => c0.name == c.name) with _ | ex <;> rw [hf] at h
  · have h2 : RegisterOutcome.ok (c :: reg) = RegisterOutcome.ok r2 := h
    injection h2 with h3
    exact ⟨hf, h3.symm⟩
  · have h2 : (if ex.help = c.help ∧ ex.labels = c.labels
        then RegisterOutcome.alreadyRegistered ex
        else RegisterOutcome.failed
          "a previously registered descriptor with the same fully-qualified name has different fields")
        = RegisterOutcome.ok r2 := h
    by_cases hd : ex.help = c.help ∧ ex.labels = c.labels
    · rw [if_pos hd] at h2
      exact absurd h2 (by simp)
    · rw [if_neg hd] at h2
      exact absurd h2 (by simp)

lemma register_already_inv {reg : List Collector} {c ex : Collector}
    (h : register reg c = .alreadyRegistered ex) :
    reg.find? (fun c0 => c0.name == c.name) = some ex
      ∧ ex.help = c.help ∧ ex.labels = c.labels := by
  unfold register at h
  rcases hf : reg.find? (fun c0 => c0.name == c.name) with _ | ex0 <;> rw [hf] at h
  · exact absurd h (by simp)
  · have h2 : (if ex0.help = c.help ∧ ex0.labels = c.labels
        then RegisterOutcome.alreadyRegistered ex0
        else RegisterOutcome.failed
          "a previously registered descriptor with the same fully-qualified name has different fields")
        = RegisterOutcome.alreadyRegistered ex := h
    by_cases hd : ex0.help = c.help ∧ ex0.labels = c.labels
    · rw [if_pos hd] at h2
      injection h2 with h3
      subst h3
      exact ⟨hf, hd.1, hd.2⟩
    · rw [if_neg hd] at h2
      exact absurd h2 (by simp)

lemma register_of_find_some {reg : List Collector} {c ex : Collector}
    (hf : reg.find? (fun c0 => c0.name == c.name) = some ex)
    (hd : ex.help = c.help ∧ ex.labels = c.labels) :
    register reg c = .alreadyRegistered ex := by
  unfold register
  rw [hf]
  show (if ex.help = c.help ∧ ex.labels = c.labels
      then RegisterOutcome.alreadyRegistered ex
      else RegisterOutcome.failed
        "a previously registered descriptor with the same fully-qualified name has different fields")
      = RegisterOutcome.alreadyRegistered ex
  rw [if_pos hd]

/-- C8: for each helper, a successful call followed by a second call with
the same name and type returns the same collector instance and the same
registry — no duplicate-registration error surfaces. -/
theorem metric_registration_idempotent
    (reg reg2 : List Collector) (n h : String) (labels : List String)
    (f1 f2 : Nat) (c : Collector) :
    (newGauge reg n h f1 = .ok c reg2 → newGauge reg2 n h f2 = .ok c reg2) ∧
    (newGaugeVec reg n h labels f1 = .ok c reg2 →
      newGaugeVec reg2 n h labels f2 = .ok c reg2) ∧
    (newGaugeFunc reg n h f1 = .ok c reg2 → newGaugeFunc reg2 n h f2 = .ok c reg2) := by
  refine ⟨?_, ?_, ?_⟩
  · intro hyp
    unfold newGauge at hyp ⊢
    rcases hreg : register reg ⟨CollectorKind.gauge, n, h, [], f1⟩ with r2 | ex | m <;>
      rw [hreg] at hyp
    · have h2 : HelperResult.ok ⟨CollectorKind.gauge, n, h, [], f1⟩ r2
          = HelperResult.ok c reg2 := hyp
      injection h2 with hc hr
      subst hc
      subst hr
      obtain ⟨hfind, hr2⟩ := register_ok_inv hreg
      subst hr2
      have hfind2 : (⟨CollectorKind.gauge, n, h, [], f1⟩ :: reg).find?
          (fun c0 => c0.name
            == (⟨CollectorKind.gauge, n, h, [], f2⟩ : Collector).name)
          = some ⟨CollectorKind.gauge, n, h, [], f1⟩ := by
        apply List.find?_cons_of_pos
        simp
      rw [register_of_find_some hfind2 ⟨rfl, rfl⟩]
      simp [castable]
    · have h2 : (if castable ex.kind CollectorKind.gauge = true
          then HelperResult.ok ex reg
          else HelperResult.panicked "different metric type registration")
          = HelperResult.ok c reg2 := hyp
      rcases hcast : castable ex.kind CollectorKind.gauge with _ | _ <;> rw [hcast] at h2
      · exact absurd h2 (by simp)
      · injection h2 with hc hr
        subst hc
        subst hr
        obtain ⟨hfind, hh, hl⟩ := register_already_inv hreg
        have hfind2 : reg.find? (fun c0 => c0.name
            == (⟨CollectorKind.gauge, n, h, [], f2⟩ : Collector).name) = some ex := hfind
        rw [register_of_find_some hfind2 ⟨hh, hl⟩]
        exact if_pos hcast
    · have h2 : HelperResult.panicked m = HelperResult.ok c reg2 := hyp
      exact absurd h2 (by simp)
  · intro hyp
    unfold newGaugeVec at hyp ⊢
    rcases hreg : register reg ⟨CollectorKind.gaugeVec, n, h, labels, f1⟩ with r2 | ex | m <;>
      rw [hreg] at hyp
    · have h2 : HelperResult.ok ⟨CollectorKind.gaugeVec, n, h, labels, f1⟩ r2
          = HelperResult.ok c reg2 := hyp
      injection h2 with hc hr
      subst hc
      subst hr
      obtain ⟨hfind, hr2⟩ := register_ok_inv hreg
      subst hr2
      have hfind2 : (⟨CollectorKind.gaugeVec, n, h, labels, f1⟩ :: reg).find?
          (fun c0 => c0.name
            == (⟨CollectorKind.gaugeVec, n, h, labels, f2⟩ : Collector).name)
          = some ⟨CollectorKind.gaugeVec, n, h, labels, f1⟩ := by
        apply List.find?_cons_of_pos
        simp
      rw [register_of_find_some hfind2 ⟨rfl, rfl⟩]
      simp [castable]
    · have h2 : (if castable ex.kind CollectorKind.gaugeVec = true
          then HelperResult.ok ex reg
          else HelperResult.panicked "different metric type registration")
          = HelperResult.ok c reg2 := hyp
      rcases hcast : castable ex.kind CollectorKind.gaugeVec with _ | _ <;> rw [hcast] at h2
      · exact absurd h2 (by simp)
      · injection h2 with hc hr
        subst hc
        subst hr
        obtain ⟨hfind, hh, hl⟩ := register_already_inv hreg
        have hfind2 : reg.find? (fun c0 => c0.name
            == (⟨CollectorKind.gaugeVec, n, h, labels, f2⟩ : Collector).name) = some ex := hfind
        rw [register_of_find_some hfind2 ⟨hh, hl⟩]
        exact if_pos hcast
    · have h2 : HelperResult.panicked m = HelperResult.ok c reg2 := hyp
      exact absurd h2 (by simp)
  · intro hyp
    unfold newGaugeFunc at hyp ⊢
    rcases hreg : register reg ⟨CollectorKind.gaugeFunc, n, h, [], f1⟩ with r2 | ex | m <;>
      rw [hreg] at hyp
    · have h2 : HelperResult.ok ⟨CollectorKind.gaugeFunc, n, h, [], f1⟩ r2
          = HelperResult.ok c reg2 := hyp
      injection h2 with hc hr
      subst hc
      subst hr
      obtain ⟨hfind, hr2⟩ := register_ok_inv hreg
      subst hr2
      have hfind2 : (⟨CollectorKind.gaugeFunc, n, h, [], f1⟩ :: reg).find?
          (fun c0 => c0.name
            == (⟨CollectorKind.gaugeFunc, n, h, [], f2⟩ : Collector).name)
          = some ⟨CollectorKind.gaugeFunc, n, h, [], f1⟩ := by
        apply List.find?_cons_of_pos
        simp
      rw [register_of_find_some hfind2 ⟨rfl, rfl⟩]
      simp [castable]
    · have h2 : (if castable ex.kind CollectorKind.gaugeFunc = true
          then HelperResult.ok ex reg
          else HelperResult.panicked "different metric type registration")
          = HelperResult.ok c reg2 := hyp
      rcases hcast : castable ex.kind CollectorKind.gaugeFunc with _ | _ <;> rw [hcast] at h2
      · exact absurd h2 (by simp)
      · injection h2 with hc hr
        subst hc
        subst hr
        obtain ⟨hfind, hh, hl⟩ := register_already_inv hreg
        have hfind2 : reg.find? (fun c0 => c0.name
            == (⟨CollectorKind.gaugeFunc, n, h, [], f2⟩ : Collector).name) = some ex := hfind
        rw [register_of_find_some hfind2 ⟨hh, hl⟩]
        exact if_pos hcast
    · have h2 : HelperResult.panicked m = HelperResult.ok c reg2 := hyp
      exact absurd h2 (by simp)

/-- Witness for `metric_registration_idempotent`: registering the gauge
`conduit_up` twice returns the first collector both times, with no
error. -/
theorem metric_registration_idempotent_witness :
    newGauge [(⟨CollectorKind.gauge, "conduit_up", "h", [], 0⟩ : Collector)]
      "conduit_up" "h" 1
      = .ok ⟨CollectorKind.gauge, "conduit_up", "h", [], 0⟩
          [⟨CollectorKind.gauge, "conduit_up", "h", [], 0⟩] :=
  (metric_registration_idempotent [] [⟨CollectorKind.gauge, "conduit_up", "h", [], 0⟩]
    "conduit_up" "h" [] 0 1 ⟨CollectorKind.gauge, "conduit_up", "h", [], 0⟩).1 (by decide)

/-- C9: for each helper, an `AlreadyRegisteredError` whose existing
collector does not cast to the requested type makes the helper panic with
`different metric type registration` rather than return an error, and any
registration failure other than `AlreadyRegisteredError` makes it panic
with that failure. -/
theorem metric_registration_mismatch_panics
    (reg : List Collector) (n h : String) (labels : List String) (f : Nat)
    (ex : Collector) (m : String) :
    (register reg ⟨CollectorKind.gauge, n, h, [], f⟩ = .alreadyRegistered ex →
      castable ex.kind CollectorKind.gauge = false →
      newGauge reg n h f = .panicked "different metric type registration") ∧
    (register reg ⟨CollectorKind.gauge, n, h, [], f⟩ = .failed m →
      newGauge reg n h f = .panicked m) ∧
    (register reg ⟨CollectorKind.gaugeVec, n, h, labels, f⟩ = .alreadyRegistered ex →
      castable ex.kind CollectorKind.gaugeVec = false →
      newGaugeVec reg n h labels f = .panicked "different metric type registration") ∧
    (register reg ⟨CollectorKind.gaugeVec, n, h, labels, f⟩ = .failed m →
      newGaugeVec reg n h labels f = .panicked m) ∧
    (register reg ⟨CollectorKind.gaugeFunc, n, h, [], f⟩ = .alreadyRegistered ex →
      castable ex.kind CollectorKind.gaugeFunc = false →
      newGaugeFunc reg n h f = .panicked "different metric type registration") ∧
    (register reg ⟨CollectorKind.gaugeFunc, n, h, [], f⟩ = .failed m →
      newGaugeFunc reg n h f = .panicked m) := by
  refine ⟨?_, ?_, ?_, ?_, ?_, ?_⟩
  · intro hreg hcast
    unfold newGauge
    rw [hreg]
    exact if_neg (by simp [hcast])
  · intro hreg
    unfold newGauge
    rw [hreg]
  · intro hreg hcast
    unfold newGaugeVec
    rw [hreg]
    exact if_neg (by simp [hcast])
  · intro hreg
    unfold newGaugeVec
    rw [hreg]
  · intro hreg hcast
    unfold newGaugeFunc
    rw [hreg]
    exact if_neg (by simp [hcast])
  · intro hreg
    unfold newGaugeFunc
    rw [hreg]

/-- Witness for `metric_registration_mismatch_panics`: requesting a gauge
named `conduit_up` when a gauge vector of that name and descriptor is
registered panics. -/
theorem metric_registration_mismatch_panics_witness :
    newGauge [(⟨CollectorKind.gaugeVec, "conduit_up", "h", [], 0⟩ : Collector)]
      "conduit_up" "h" 1
      = .panicked "different metric type registration" :=
  (metric_registration_mismatch_panics
    [⟨CollectorKind.gaugeVec, "conduit_up", "h", [], 0⟩] "conduit_up" "h" [] 1
    ⟨CollectorKind.gaugeVec, "conduit_up", "h", [], 0⟩ "m").1 (by decide) (by decide)

/-! ### The `--stats-file` flag claims -/

/-- C10, counterexample: passing an explicitly empty value
(`--stats-file=""`) also leaves the pattern empty although the flag was
not omitted, so "only omitting the flag entirely leaves the pattern
empty" fails as stated. -/
theorem statsFlag_empty_value_counterexample :
    statsFilePatternOf (.presentValue "") = "" ∧
    FlagUse.presentValue "" ≠ FlagUse.absent :=
  ⟨rfl, by simp⟩

/-- C10, amended: `--stats-file` with no explicit value selects the
pattern `stats.json`, and then every instance's stats path is non-empty;
omitting the flag keeps the empty default (as does an explicitly empty
value), and an empty pattern produces no stats file for any instance. -/
theorem statsFlag_resolution :
    statsFilePatternOf .presentNoValue = "stats.json" ∧
    (∀ (base : String) (i : Nat),
      statsFileFor base (statsFilePatternOf .presentNoValue) i ≠ "") ∧
    statsFilePatternOf .absent = "" ∧
    (∀ (base : String) (i : Nat),
      statsFileFor base (statsFilePatternOf .absent) i = "") := by
  refine ⟨rfl, ?_, rfl, ?_⟩
  · intro base i
    exact statsFileFor_ne_empty base "stats.json" i (by decide)
  · intro base i
    rfl

/-- Witness for `statsFlag_resolution`: with the flag given and no value,
instance 0 of base `/tmp/x` has a non-empty stats path. -/
theorem statsFlag_resolution_witness :
    ¬ (statsFileFor "/tmp/x" (statsFilePatternOf .presentNoValue) 0 = "") :=
  statsFlag_resolution.2.1 "/tmp/x" 0

end Conduit
